import Mathlib

/-!
# Verification of `vizbeauty/common.py`

A shallow embedding of the five helper functions in `vizbeauty/common.py`
(`print_statistic`, `beautybar`, `pearson_correlation`, `reg_scatter`,
`visualize_hyperparameter`) together with proofs about their behaviour.

Conventions of the embedding:
* pandas/numpy scalars are `PyVal` (a rational number, a missing entry, or a
  string); a NaN produced by a computation is `Option ℚ` with `none` = NaN.
* Console output is a list of structured lines; a raised exception is the
  `Except.error` case, carrying the message of the underlying library call.
* Values a Python float cannot represent exactly in `ℚ` (standard deviation,
  skewness) are reported through their exact defining data, as documented on
  the corresponding definitions.
-/

deriving instance DecidableEq for Except

namespace VizBeauty

/-- A scalar held in a pandas Series cell: a numeric value, a missing entry
(`None`/NaN), or a string (non-numeric data). -/
inductive PyVal where
  | num (q : ℚ)
  | nullv
  | strv (s : String)
deriving DecidableEq, Repr

/-- The numeric content of a cell, `none` for missing cells. -/
def numOf : PyVal → Option ℚ
  | .num q => some q
  | _ => none

/-- Numeric entries of a column, in order (pandas reductions skip missing entries). -/
def numsOf (xs : List PyVal) : List ℚ := xs.filterMap numOf

/-- Whether the column holds a string cell; pandas/numpy numeric reductions
then raise a `TypeError`. -/
def hasStr (xs : List PyVal) : Bool :=
  xs.any fun v => match v with | .strv _ => true | _ => false

/-- Whether the column holds a missing entry. -/
def hasNull (xs : List PyVal) : Bool :=
  xs.any fun v => match v with | .nullv => true | _ => false

/-- `Series.isnull().sum()`: the number of missing entries. -/
def isnullCount (xs : List PyVal) : ℕ :=
  xs.countP fun v => match v with | .nullv => true | _ => false

/-- NaN-propagating addition of a plain float to a possibly-NaN float. -/
def oAdd (a : Option ℚ) (b : ℚ) : Option ℚ := a.map (· + b)

/-- Floor of a rational, computed by floor division of numerator by
denominator (kernel-reducible, unlike the `Int.floor` class field). -/
def floorQ (q : ℚ) : ℤ := Int.fdiv q.num (q.den : ℤ)

/-- Round half to even, as Python `round` does. -/
def rhe (q : ℚ) : ℤ :=
  let f := floorQ q
  let r := q - (f : ℚ)
  if r < 1 / 2 then f
  else if 1 / 2 < r then f + 1
  else if f % 2 = 0 then f else f + 1

/-- Python `round(q, 2)`. -/
def round2 (q : ℚ) : ℚ := (rhe (100 * q) : ℚ) / 100

/-- `round(·, 2)` applied to a possibly-NaN value (`round(nan, 2)` is NaN). -/
def oRound2 (a : Option ℚ) : Option ℚ := a.map round2

/-- Fractional part (1..99 hundredths) as Python prints it: the trailing zero
is stripped, a leading zero is kept. -/
def fracStr (f : ℕ) : String :=
  if f % 10 = 0 then toString (f / 10)
  else if f < 10 then "0" ++ toString f
  else toString f

/-- Models Python `str(round(q, 2))` for a float holding the exact value `q`. -/
def str2dp (q : ℚ) : String :=
  let n : ℤ := rhe (100 * q)
  let sign := if n < 0 then "-" else ""
  let m := n.natAbs
  sign ++ toString (m / 100) ++ "." ++ (if m % 100 = 0 then "0" else fracStr (m % 100))

/-- `str(round(·, 2))` on a possibly-NaN value; Python prints NaN as `nan`. -/
def str2dpOpt : Option ℚ → String
  | none => "nan"
  | some q => str2dp q

/-- Insert into an ascending list, keeping it ascending. -/
def insertSorted (a : ℚ) : List ℚ → List ℚ
  | [] => [a]
  | b :: t => if a ≤ b then a :: b :: t else b :: insertSorted a t

/-- Ascending sort (the sort numpy performs inside `percentile`). -/
def sortQ (xs : List ℚ) : List ℚ := xs.foldr insertSorted []

/-- The q-th percentile of a non-empty list of plain numbers by linear
interpolation between closest ranks (numpy's default method). -/
def percentileInterp (vs : List ℚ) (q : ℚ) : ℚ :=
  let s := sortQ vs
  let n := s.length
  let h : ℚ := ((n : ℚ) - 1) * q / 100
  let i : ℕ := (floorQ h).toNat
  let lo := s.getD i 0
  let hi := s.getD (min (i + 1) (n - 1)) 0
  lo + (h - (i : ℚ)) * (hi - lo)

/-- `np.percentile(xs, q)`: `TypeError` on string cells, `IndexError` on an
empty array, NaN (`none`) as soon as any missing entry is present — numpy,
unlike the pandas reductions, does not skip NaN — and otherwise the
interpolated percentile of the values. -/
def npPercentile (xs : List PyVal) (q : ℚ) : Except String (Option ℚ) :=
  if hasStr xs then .error "TypeError: could not convert string to numeric"
  else if xs.isEmpty then .error "IndexError: cannot do a non-empty take from an empty axes"
  else if hasNull xs then .ok none
  else .ok (some (percentileInterp (numsOf xs) q))

/-- Mean of the numeric entries, `none` (NaN) when there are none. -/
def meanOpt (xs : List PyVal) : Option ℚ :=
  let vs := numsOf xs
  if vs.length = 0 then none else some (vs.sum / (vs.length : ℚ))

/-- `Series.mean()`: `TypeError` on string cells, otherwise skips missing
entries, NaN on an empty or all-missing column. -/
def pdMean (xs : List PyVal) : Except String (Option ℚ) :=
  if hasStr xs then .error "TypeError: could not convert string to numeric"
  else .ok (meanOpt xs)

/-- Median of the numeric entries (mean of the two middle values when the
count is even), `none` (NaN) when there are none. -/
def medianOpt (xs : List PyVal) : Option ℚ :=
  let s := sortQ (numsOf xs)
  let n := s.length
  if n = 0 then none
  else if n % 2 = 1 then some (s.getD (n / 2) 0)
  else some ((s.getD (n / 2 - 1) 0 + s.getD (n / 2) 0) / 2)

/-- `Series.median()`: `TypeError` on string cells, otherwise the median of
the non-missing entries. -/
def pdMedian (xs : List PyVal) : Except String (Option ℚ) :=
  if hasStr xs then .error "TypeError: could not convert string to numeric"
  else .ok (medianOpt xs)

/-- Sample variance (ddof = 1) of the numeric entries; the standard deviation
`Series.std()` prints is its square root, irrational in general, so the
embedding reports the exact variance. NaN (`none`) when fewer than 2 entries. -/
def varOpt (xs : List PyVal) : Option ℚ :=
  let vs := numsOf xs
  let n := vs.length
  if n ≤ 1 then none
  else
    let m := vs.sum / (n : ℚ)
    some ((vs.map fun v => (v - m) ^ 2).sum / ((n : ℚ) - 1))

/-- `Series.std()`, reported through the sample variance (see `varOpt`). -/
def pdStd (xs : List PyVal) : Except String (Option ℚ) :=
  if hasStr xs then .error "TypeError: could not convert string to numeric"
  else .ok (varOpt xs)

/-- `Series.min()`: smallest non-missing entry, NaN when there is none. -/
def minOpt (xs : List PyVal) : Option ℚ := (sortQ (numsOf xs)).head?

/-- `Series.max()`: largest non-missing entry, NaN when there is none. -/
def maxOpt (xs : List PyVal) : Option ℚ := (sortQ (numsOf xs)).getLast?

/-- `Series.min()` with the string-cell `TypeError` of mixed columns. -/
def pdMin (xs : List PyVal) : Except String (Option ℚ) :=
  if hasStr xs then .error "TypeError: could not convert string to numeric"
  else .ok (minOpt xs)

/-- `Series.max()` with the string-cell `TypeError` of mixed columns. -/
def pdMax (xs : List PyVal) : Except String (Option ℚ) :=
  if hasStr xs then .error "TypeError: could not convert string to numeric"
  else .ok (maxOpt xs)

/-- Central-moment data `(n, m2, m3)` of the numeric entries; the adjusted
Fisher-Pearson skewness `Series.skew()` prints is
`m3 / m2 ^ (3/2) * sqrt (n * (n-1)) / (n-2)`, irrational in general, so the
embedding reports the exact defining data. NaN (`none`) when n < 3. -/
def skewData (xs : List PyVal) : Option (ℕ × ℚ × ℚ) :=
  let vs := numsOf xs
  let n := vs.length
  if n < 3 then none
  else
    let m := vs.sum / (n : ℚ)
    some (n, (vs.map fun v => (v - m) ^ 2).sum / (n : ℚ),
          (vs.map fun v => (v - m) ^ 3).sum / (n : ℚ))

/-- `Series.skew()`, reported through its defining data (see `skewData`). -/
def pdSkew (xs : List PyVal) : Except String (Option (ℕ × ℚ × ℚ)) :=
  if hasStr xs then .error "TypeError: could not convert string to numeric"
  else .ok (skewData xs)

/-- Sample excess kurtosis G2 of the numeric entries, as `Series.kurtosis()`
computes it; NaN (`none`) when n < 4 or the variance vanishes. -/
def kurtOpt (xs : List PyVal) : Option ℚ :=
  let vs := numsOf xs
  let n := vs.length
  if n < 4 then none
  else
    let m := vs.sum / (n : ℚ)
    let m2 := (vs.map fun v => (v - m) ^ 2).sum / (n : ℚ)
    let m4 := (vs.map fun v => (v - m) ^ 4).sum / (n : ℚ)
    if m2 = 0 then none
    else some ((((n : ℚ) + 1) * (m4 / m2 ^ 2 - 3) + 6) * ((n : ℚ) - 1) /
               (((n : ℚ) - 2) * ((n : ℚ) - 3)))

/-- `Series.kurtosis()` with the string-cell `TypeError` of mixed columns. -/
def pdKurt (xs : List PyVal) : Except String (Option ℚ) :=
  if hasStr xs then .error "TypeError: could not convert string to numeric"
  else .ok (kurtOpt xs)

/-- One printed line of the `print_statistic` report. Payloads that a float
prints exactly are carried rounded as the source rounds them; the standard
deviation and skewness lines carry their exact defining data (see `varOpt`
and `skewData`). -/
inductive StatLine where
  | header (title : String)
  | banner
  | mean (v : Option ℚ)
  | median (v : Option ℚ)
  | std (variance : Option ℚ)
  | min (v : Option ℚ)
  | max (v : Option ℚ)
  | q1 (v : Option ℚ)
  | q3 (v : Option ℚ)
  | skew (d : Option (ℕ × ℚ × ℚ))
  | kurt (v : Option ℚ)
  | missing (n : ℕ)
  | blank
deriving DecidableEq, Repr

/-- `print_statistic(title, variable)`: the report lines in print order, or
the error of the first underlying numeric call that raises — the source
installs no handler, so the first raised error aborts the remaining lines
and propagates unchanged. -/
def print_statistic (title : String) (xs : List PyVal) : Except String (List StatLine) := do
  let m ← pdMean xs
  let md ← pdMedian xs
  let sd ← pdStd xs
  let mn ← pdMin xs
  let mx ← pdMax xs
  let q1 ← npPercentile xs 25
  let q3 ← npPercentile xs 75
  let sk ← pdSkew xs
  let ku ← pdKurt xs
  pure [StatLine.header title, StatLine.banner,
        StatLine.mean (oRound2 m), StatLine.median (oRound2 md),
        StatLine.std sd,
        StatLine.min (oRound2 mn), StatLine.max (oRound2 mx),
        StatLine.q1 (oRound2 q1), StatLine.q3 (oRound2 q3),
        StatLine.skew sk, StatLine.kurt (oRound2 ku),
        StatLine.missing (isnullCount xs),
        StatLine.banner, StatLine.blank]

/-! ## Tabular data and the matplotlib surface -/

/-- A dataframe: named columns of equal length. -/
structure Frame where
  cols : List (String × List PyVal)
deriving DecidableEq, Repr

/-- Column access `data[c]`. Per the data-model invariant every referenced
column exists; a missing column (which would raise `KeyError` in pandas) is
defaulted to the empty column, outside every claim's hypotheses. -/
def Frame.col (f : Frame) (c : String) : List PyVal :=
  ((f.cols.find? fun p => p.1 == c).map fun p => p.2).getD []

/-- The ambient matplotlib state: the current figure, the current axes
(`plt.gca()`), and the figure owning each axes. -/
structure PltState where
  currentFig : ℕ
  currentAxes : ℕ
  figOf : ℕ → ℕ

/-- An `ax.text(...)` call: position (NaN-capable floats), the string drawn,
and the keyword options the source passes. -/
structure TextCmd where
  x : Option ℚ
  y : Option ℚ
  txt : String
  ha : Option String := none
  va : Option String := none
  color : Option String := none
deriving DecidableEq, Repr

/-- First-appearance deduplication: the order `pd.unique` returns for the
cells of a column. -/
def dedupFirst : List PyVal → List PyVal
  | [] => []
  | a :: t => a :: (dedupFirst t).filter fun b => b ≠ a

/-- First-appearance deduplication of a list of plain numbers. -/
def dedupQFirst : List ℚ → List ℚ
  | [] => []
  | a :: t => a :: (dedupQFirst t).filter fun b => b ≠ a

/-- seaborn's `categorical_order`: the distinct non-missing values of the
column; first-appearance order for an object-dtype (string-bearing) column,
ascending numeric order for a numeric column (seaborn sorts the unique
values when the variable type is numeric); a missing entry never forms a
category. -/
def categoricalOrder (xs : List PyVal) : List PyVal :=
  if hasStr xs then (dedupFirst xs).filter fun v => v ≠ PyVal.nullv
  else (sortQ (dedupQFirst (numsOf xs))).map PyVal.num

/-- The y cells of the rows whose x cell equals the category `c`. -/
def rowsOf (c : PyVal) (rows : List (PyVal × PyVal)) : List PyVal :=
  (rows.filter fun r => r.1 = c).map fun r => r.2

/-- `sns.barplot(x=x, y=y, data=data)`: one bar per x category in seaborn's
`categorical_order` (see `categoricalOrder`), of height the mean of the y
cells of that category (the seaborn default estimator, skipping missing
values). -/
def barplotBars (xcol ycol : List PyVal) : List (PyVal × Option ℚ) :=
  (categoricalOrder xcol).map fun c => (c, meanOpt (rowsOf c (xcol.zip ycol)))

/-- The rendering `beautybar` performs, field by field in source order:
the bars, the per-row text labels, the dashed average line, the average
annotation, axis labels, tick-label rotation, the gridline, and the figure
the final `plt.tight_layout()` call acts on. -/
structure BeautyOut where
  axesId : ℕ
  barColor : String
  bars : List (PyVal × Option ℚ)
  barTexts : List TextCmd
  reflineY : Option ℚ
  reflineColor : String
  reflineStyle : String
  avgText : TextCmd
  xlabel : String
  ylabel : String
  tickRotation : ℚ
  tickHa : String
  gridAxis : String
  gridStyle : String
  tightLayoutFig : ℕ

/-- `beautybar(x, y, data, data_avg, color, ax)`. When `ax` is `None` the
source draws on `plt.gca()`; every `ax.`-call then targets that axes, while
the closing `plt.tight_layout()` is a pyplot module call acting on the
current figure of the ambient state. -/
def beautybar (st : PltState) (x y : String) (data data_avg : Frame)
    (color : String := "skyblue") (ax : Option ℕ := none) : BeautyOut :=
  let axesId := ax.getD st.currentAxes
  let avg := meanOpt (data_avg.col y)
  { axesId := axesId
  , barColor := color
  , bars := barplotBars (data.col x) (data.col y)
  , barTexts := (data.col y).enum.map fun p =>
      { x := some (p.1 : ℚ), y := oAdd (numOf p.2) (1 / 5)
      , txt := str2dpOpt (numOf p.2), ha := some "center", va := some "bottom" }
  , reflineY := avg
  , reflineColor := "r"
  , reflineStyle := "--"
  , avgText := { x := some (19 / 2), y := oAdd avg (1 / 5)
               , txt := "Average: " ++ str2dpOpt avg, color := some "red" }
  , xlabel := x
  , ylabel := y
  , tickRotation := 45
  , tickHa := "right"
  , gridAxis := "y"
  , gridStyle := "--"
  , tightLayoutFig := st.currentFig }

/-- The property claim C2 asserts of a `beautybar` rendering: every bar —
the pair `(c, v)` at category position `i` — carries a centered text label
placed directly above it (horizontal position `i`, vertical position its
height plus the 0.2 offset) whose text is the bar's height rounded to 2
decimals. -/
def labelsShowBarHeights (o : BeautyOut) : Prop :=
  ∀ (i : ℕ) (c : PyVal) (v : Option ℚ), o.bars.get? i = some (c, v) →
    ({ x := some (i : ℚ), y := oAdd v (1 / 5), txt := str2dpOpt v
     , ha := some "center", va := some "bottom" } : TextCmd) ∈ o.barTexts

/-! ## pearson_correlation -/

/-- One printed line of the `pearson_correlation` report; the coefficient and
p-value lines carry the values the source prints unrounded. -/
inductive PearsonLine where
  | coeff (r : ℚ)
  | pval (p : ℚ)
  | verdict (s : String)
deriving DecidableEq, Repr

/-- The significance message of the source, built around the two series names. -/
def sigMsg (xn yn : String) : String :=
  "There is a statistically significant correlation between " ++ xn ++ " and " ++ yn ++ "."

/-- The no-significance message of the source. -/
def noSigMsg (xn yn : String) : String :=
  "There is no statistically significant correlation between " ++ xn ++ " and " ++ yn ++ "."

/-- `pearson_correlation(x, y)` after the `pearsonr(x, y)` call, which the
embedding abstracts as the coefficient/p-value pair `(r, p)` it returns (its
beta-distribution internals lie in scipy); `xn`, `yn` are `x.name`, `y.name`.
The source prints the coefficient, the p-value, and one verdict chosen by
`p_value < alpha` with `alpha = 0.05`. -/
def pearson_correlation (xn yn : String) (r p : ℚ) : List PearsonLine :=
  let alpha : ℚ := 1 / 20
  [PearsonLine.coeff r, PearsonLine.pval p,
   PearsonLine.verdict (if p < alpha then sigMsg xn yn else noSigMsg xn yn)]

/-! ## reg_scatter -/

/-- The regression estimator a `sns.regplot` call uses. The source passes
none of `order`, `logistic`, `lowess`, `robust`, so the default ordinary
least squares is selected. -/
inductive Estimator where
  | ols
deriving DecidableEq, Repr

/-- The sums an ordinary-least-squares fit is built from. -/
def sumX (pts : List (ℚ × ℚ)) : ℚ := (pts.map fun p => p.1).sum

/-- Sum of the y coordinates. -/
def sumY (pts : List (ℚ × ℚ)) : ℚ := (pts.map fun p => p.2).sum

/-- Sum of the squared x coordinates. -/
def sumXX (pts : List (ℚ × ℚ)) : ℚ := (pts.map fun p => p.1 * p.1).sum

/-- Sum of the coordinate products. -/
def sumXY (pts : List (ℚ × ℚ)) : ℚ := (pts.map fun p => p.1 * p.2).sum

/-- The denominator of the least-squares slope; zero exactly on degenerate
clouds (fewer than two distinct x values). -/
def olsDen (pts : List (ℚ × ℚ)) : ℚ :=
  (pts.length : ℚ) * sumXX pts - sumX pts * sumX pts

/-- The least-squares slope. -/
def olsSlope (pts : List (ℚ × ℚ)) : ℚ :=
  ((pts.length : ℚ) * sumXY pts - sumX pts * sumY pts) / olsDen pts

/-- The least-squares intercept. -/
def olsIntercept (pts : List (ℚ × ℚ)) : ℚ :=
  (sumY pts - olsSlope pts * sumX pts) / (pts.length : ℚ)

/-- The ordinary-least-squares line `(slope, intercept)` through a point
cloud, `none` when the fit is degenerate. -/
def olsFit (pts : List (ℚ × ℚ)) : Option (ℚ × ℚ) :=
  if olsDen pts = 0 then none else some (olsSlope pts, olsIntercept pts)

/-- Sum of the vertical residuals of the line `y = a * x + b` over a cloud. -/
def resSum (pts : List (ℚ × ℚ)) (a b : ℚ) : ℚ :=
  (pts.map fun p => p.2 - (a * p.1 + b)).sum

/-- Sum of the vertical residuals weighted by the x coordinate. -/
def resXSum (pts : List (ℚ × ℚ)) (a b : ℚ) : ℚ :=
  (pts.map fun p => p.1 * (p.2 - (a * p.1 + b))).sum

/-- The line an estimator draws through the data. -/
def Estimator.fitLine : Estimator → List (ℚ × ℚ) → Option (ℚ × ℚ)
  | .ols, pts => olsFit pts

/-- The `sns.scatterplot` layer with the arguments the source forwards. -/
structure ScatterLayer where
  x : String
  y : String
  data : Frame
  hue : Option String
  legend : String
  size : Option String
  sizes : Option (ℚ × ℚ)
  axId : Option ℕ
deriving DecidableEq, Repr

/-- The `sns.regplot` layer with the arguments the source passes. -/
structure RegLayer where
  x : String
  y : String
  data : Frame
  axId : Option ℕ
  scatter : Bool
  ci : Option ℚ
  lineColor : String
  estimator : Estimator
deriving DecidableEq, Repr

/-- A drawing layer of `reg_scatter`. -/
inductive Layer where
  | scatterL (l : ScatterLayer)
  | regL (l : RegLayer)
deriving DecidableEq, Repr

/-- Whether a layer draws the data points as markers: a scatter layer always
does, a regression layer only when its `scatter` flag is set. -/
def Layer.drawsMarkers : Layer → Bool
  | .scatterL _ => true
  | .regL l => l.scatter

/-- Whether a layer is a regression layer. -/
def Layer.isRegLayer : Layer → Bool
  | .scatterL _ => false
  | .regL _ => true

/-- `reg_scatter(x, y, data, hue, legend, size, sizes, ax)`: the two layers
drawn, in draw order. -/
def reg_scatter (x y : String) (data : Frame) (hue : Option String := none)
    (legend : String := "auto") (size : Option String := none)
    (sizes : Option (ℚ × ℚ) := none) (ax : Option ℕ := none) : List Layer :=
  [Layer.scatterL { x := x, y := y, data := data, hue := hue, legend := legend
                  , size := size, sizes := sizes, axId := ax },
   Layer.regL { x := x, y := y, data := data, axId := ax, scatter := false
              , ci := none, lineColor := "black", estimator := Estimator.ols }]

/-! ## visualize_hyperparameter -/

/-- The figure `visualize_hyperparameter` renders. -/
structure VizOut where
  newFigure : Bool
  figWidth : ℚ
  figHeight : ℚ
  points : List (ℚ × ℚ)
  marker : String
  title : String
  xlabel : String
  ylabel : String
  grid : Bool
  shown : Bool
deriving DecidableEq, Repr

/-- `visualize_hyperparameter(param_name, param_values, scores)`: a new
10 by 6 figure with one scatter point per paired input, in input order;
`plt.scatter` raises `ValueError` when the two sequences differ in length. -/
def visualize_hyperparameter (param_name : String) (param_values scores : List ℚ) :
    Except String VizOut :=
  if param_values.length = scores.length then
    .ok { newFigure := true, figWidth := 10, figHeight := 6
        , points := param_values.zip scores, marker := "o"
        , title := "Effect of " ++ param_name ++ " on Model Performance"
        , xlabel := param_name, ylabel := "Mean Squared Error"
        , grid := true, shown := true }
  else .error "ValueError: x and y must be the same size"

/-! ## Theorems -/

/-- The two verdict messages never coincide, whatever the series names:
their fixed prefixes differ in length. -/
theorem sigMsg_ne_noSigMsg (xn yn : String) : sigMsg xn yn ≠ noSigMsg xn yn := by
  intro h
  have h2 := congrArg String.length h
  simp only [sigMsg, noSigMsg, String.length_append] at h2
  have hA : ("There is a statistically significant correlation between ").length = 57 := by
    decide
  have hB : ("There is no statistically significant correlation between ").length = 58 := by
    decide
  rw [hA, hB] at h2
  omega

/-- C3: for every pair of series names and every coefficient/p-value pair the
`pearsonr` call returns, `pearson_correlation` prints the
"statistically significant" verdict naming the two series exactly when the
p-value is strictly below 0.05, and the "no statistically significant
correlation" verdict naming them otherwise — in particular when the p-value
equals 0.05 exactly. -/
theorem pearson_correlation_significance_verdict (xn yn : String) (r p : ℚ) :
    (PearsonLine.verdict (sigMsg xn yn) ∈ pearson_correlation xn yn r p ↔ p < 1 / 20) ∧
    (PearsonLine.verdict (noSigMsg xn yn) ∈ pearson_correlation xn yn r p ↔ ¬p < 1 / 20) ∧
    PearsonLine.verdict (noSigMsg xn yn) ∈ pearson_correlation xn yn r (1 / 20) := by
  have hne := sigMsg_ne_noSigMsg xn yn
  refine ⟨?_, ?_, ?_⟩
  · by_cases hp : p < 1 / 20
    · simp only [pearson_correlation, if_pos hp]
      simpa using hp
    · simp only [pearson_correlation, if_neg hp]
      constructor
      · intro hmem
        simp at hmem
        exact absurd hmem hne
      · intro hlt
        exact absurd hlt hp
  · by_cases hp : p < 1 / 20
    · simp only [pearson_correlation, if_pos hp]
      constructor
      · intro hmem
        simp at hmem
        exact absurd hmem (Ne.symm hne)
      · intro hnlt
        exact absurd hp hnlt
    · simp only [pearson_correlation, if_neg hp]
      simpa using hp
  · simp [pearson_correlation]

/-- C4: the height of the dashed reference line `beautybar` draws is exactly
the (missing-entry-skipping) mean of the `y` column of `data_avg`, and is
unchanged by replacing `data` with any other frame. -/
theorem beautybar_refline_is_mean_of_data_avg (st : PltState) (x y : String)
    (data data2 data_avg : Frame) (color : String) (ax : Option ℕ) :
    (beautybar st x y data data_avg color ax).reflineY = meanOpt (data_avg.col y) ∧
    (beautybar st x y data data_avg color ax).reflineY =
      (beautybar st x y data2 data_avg color ax).reflineY :=
  ⟨rfl, rfl⟩

/-- C9: whatever the inputs — in particular however many categories `data`
holds — the average annotation of `beautybar` is the text
`Average: <mean of data_avg[y] rounded to 2 decimals>` drawn at the fixed
horizontal coordinate 9.5, vertically 0.2 above the reference line. -/
theorem beautybar_average_annotation_fixed_position (st : PltState) (x y : String)
    (data data_avg : Frame) (color : String) (ax : Option ℕ) :
    (beautybar st x y data data_avg color ax).avgText =
      { x := some (19 / 2)
      , y := oAdd (meanOpt (data_avg.col y)) (1 / 5)
      , txt := "Average: " ++ str2dpOpt (meanOpt (data_avg.col y))
      , color := some "red" } ∧
    (beautybar st x y data data_avg color ax).avgText.y =
      oAdd (beautybar st x y data data_avg color ax).reflineY (1 / 5) :=
  ⟨rfl, rfl⟩

/-- C10: the closing `plt.tight_layout()` of `beautybar` acts on the ambient
current figure of the plotting state even when an explicit target axes is
supplied, so whenever the supplied axes belongs to a different figure, the
layout pass does not touch that figure. -/
theorem beautybar_tight_layout_targets_current_figure (st : PltState) (x y : String)
    (data data_avg : Frame) (color : String) (a : ℕ) :
    (beautybar st x y data data_avg color (some a)).tightLayoutFig = st.currentFig ∧
    (st.figOf a ≠ st.currentFig →
      (beautybar st x y data data_avg color (some a)).tightLayoutFig ≠ st.figOf a) :=
  ⟨rfl, fun h hc => h hc.symm⟩

/-- Witness for C10 at a concrete state: axes 2 lives in figure 2 while the
current figure is 0; the layout pass targets figure 0, not figure 2. -/
theorem beautybar_tight_layout_targets_current_figure_witness :
    (beautybar ⟨0, 1, fun n => n⟩ "a" "b" ⟨[]⟩ ⟨[]⟩ "skyblue" (some 2)).tightLayoutFig = 0 ∧
    (beautybar ⟨0, 1, fun n => n⟩ "a" "b" ⟨[]⟩ ⟨[]⟩ "skyblue" (some 2)).tightLayoutFig ≠ 2 :=
  ⟨(beautybar_tight_layout_targets_current_figure ⟨0, 1, fun n => n⟩ "a" "b" ⟨[]⟩ ⟨[]⟩
      "skyblue" 2).1,
   (beautybar_tight_layout_targets_current_figure ⟨0, 1, fun n => n⟩ "a" "b" ⟨[]⟩ ⟨[]⟩
      "skyblue" 2).2 (by decide)⟩

/-- C6: for equal-length inputs, `visualize_hyperparameter` renders a new
fixed-size 10 by 6 figure whose scatter holds exactly n points, the i-th at
`(param_values[i], scores[i])` — input order preserved, nothing sorted or
aggregated away — titled `Effect of <param_name> on Model Performance`, with
the x-axis labeled by the parameter name and the y-axis `Mean Squared Error`. -/
theorem visualize_hyperparameter_points (pn : String) (pv sc : List ℚ)
    (h : pv.length = sc.length) :
    ∃ out, visualize_hyperparameter pn pv sc = Except.ok out ∧
      out.points.length = pv.length ∧
      (∀ i (h1 : i < out.points.length) (h2 : i < pv.length) (h3 : i < sc.length),
        out.points.get ⟨i, h1⟩ = (pv.get ⟨i, h2⟩, sc.get ⟨i, h3⟩)) ∧
      out.newFigure = true ∧ out.figWidth = 10 ∧ out.figHeight = 6 ∧
      out.marker = "o" ∧
      out.title = "Effect of " ++ pn ++ " on Model Performance" ∧
      out.xlabel = pn ∧ out.ylabel = "Mean Squared Error" ∧ out.grid = true := by
  unfold visualize_hyperparameter
  rw [if_pos h]
  refine ⟨_, rfl, ?_, ?_, rfl, rfl, rfl, rfl, rfl, rfl, rfl, rfl⟩
  · show (pv.zip sc).length = pv.length
    rw [List.length_zip]
    omega
  · intro i h1 h2 h3
    show (pv.zip sc).get ⟨i, h1⟩ = _
    simp [List.get_eq_getElem, List.getElem_zip]

/-- Witness for C6 at two concrete pairs. -/
theorem visualize_hyperparameter_points_witness :
    ∃ out, visualize_hyperparameter "alpha" [1, 2] [9, 4] = Except.ok out ∧
      out.points.length = 2 ∧
      (∀ i (h1 : i < out.points.length) (h2 : i < ([(1 : ℚ), 2]).length)
          (h3 : i < ([(9 : ℚ), 4]).length),
        out.points.get ⟨i, h1⟩ = (([(1 : ℚ), 2]).get ⟨i, h2⟩, ([(9 : ℚ), 4]).get ⟨i, h3⟩)) ∧
      out.newFigure = true ∧ out.figWidth = 10 ∧ out.figHeight = 6 ∧
      out.marker = "o" ∧
      out.title = "Effect of " ++ "alpha" ++ " on Model Performance" ∧
      out.xlabel = "alpha" ∧ out.ylabel = "Mean Squared Error" ∧ out.grid = true :=
  visualize_hyperparameter_points "alpha" [1, 2] [9, 4] (by decide)

/-- C7: on an empty input or one holding a non-numeric (string) entry,
`print_statistic` surfaces the error of an underlying numeric call —
`Series.mean()` or `np.percentile` — unchanged: no line of the source
catches or translates it. -/
theorem print_statistic_error_propagation (title : String) (xs : List PyVal)
    (h : xs = [] ∨ ∃ s, PyVal.strv s ∈ xs) :
    ∃ e, print_statistic title xs = Except.error e ∧
      (pdMean xs = Except.error e ∨ npPercentile xs 25 = Except.error e) := by
  rcases h with rfl | ⟨s, hs⟩
  · exact ⟨_, rfl, Or.inr rfl⟩
  · have hstr : hasStr xs = true := by
      simp only [hasStr, List.any_eq_true]
      exact ⟨_, hs, rfl⟩
    refine ⟨"TypeError: could not convert string to numeric", ?_, Or.inl ?_⟩
    · simp only [print_statistic, pdMean, hstr, if_true]
      rfl
    · simp [pdMean, hstr]

/-- Witness for C7 at the empty input: the percentile call is the raising
one (`Series.mean()` of an empty column is NaN, not an error). -/
theorem print_statistic_error_propagation_witness :
    ∃ e, print_statistic "Age" [] = Except.error e ∧
      (pdMean [] = Except.error e ∨ npPercentile [] 25 = Except.error e) :=
  print_statistic_error_propagation "Age" [] (Or.inl rfl)

/-- C1: the code does not exclude missing entries from the percentile
computations. On `[1, 2, 3, missing]` every pandas statistic skips the
missing entry (mean 2, median 2, variance 1, min 1, max 3, one missing
counted), but `np.percentile` propagates it: the Q1 and Q3 lines print NaN,
whereas the percentiles of the non-missing values — what the claim and the
spec prescribe — are 1.5 and 2.5. -/
theorem print_statistic_percentile_missing_bug :
    print_statistic "x" [.num 1, .num 2, .num 3, .nullv] =
      Except.ok
        [StatLine.header "x", StatLine.banner,
         StatLine.mean (some 2), StatLine.median (some 2),
         StatLine.std (some 1),
         StatLine.min (some 1), StatLine.max (some 3),
         StatLine.q1 none, StatLine.q3 none,
         StatLine.skew (some (3, 2 / 3, 0)), StatLine.kurt none,
         StatLine.missing 1,
         StatLine.banner, StatLine.blank] ∧
    percentileInterp (numsOf [.num 1, .num 2, .num 3, .nullv]) 25 = 3 / 2 ∧
    percentileInterp (numsOf [.num 1, .num 2, .num 3, .nullv]) 75 = 5 / 2 := by
  refine ⟨?_, ?_, ?_⟩
  · with_unfolding_all rfl
  · with_unfolding_all rfl
  · with_unfolding_all rfl

/-- The residual sum expressed through the coordinate sums. -/
theorem resSum_eq (pts : List (ℚ × ℚ)) (a b : ℚ) :
    resSum pts a b = sumY pts - a * sumX pts - (pts.length : ℚ) * b := by
  induction pts with
  | nil => simp [resSum, sumX, sumY]
  | cons p t ih =>
    simp only [resSum, List.map_cons, List.sum_cons] at ih ⊢
    rw [ih]
    simp only [sumX, sumY, List.map_cons, List.sum_cons, List.length_cons]
    push_cast
    ring

/-- The weighted residual sum expressed through the coordinate sums. -/
theorem resXSum_eq (pts : List (ℚ × ℚ)) (a b : ℚ) :
    resXSum pts a b = sumXY pts - a * sumXX pts - b * sumX pts := by
  induction pts with
  | nil => simp [resXSum, sumX, sumXX, sumXY]
  | cons p t ih =>
    simp only [resXSum, List.map_cons, List.sum_cons] at ih ⊢
    rw [ih]
    simp only [sumX, sumXX, sumXY, List.map_cons, List.sum_cons]
    ring

/-- C5: `reg_scatter` overlays exactly one regression layer; only the scatter
layer draws the data points as markers; the regression layer has no
confidence band, no scatter markers of its own, the fixed neutral line color
black, and the ordinary-least-squares estimator — whose fitted line, whenever
it exists, zeroes both least-squares normal equations (the residuals sum to
zero, plainly and weighted by x). -/
theorem reg_scatter_single_ols_regression_layer (x y : String) (data : Frame)
    (hue : Option String) (legend : String) (size : Option String)
    (sizes : Option (ℚ × ℚ)) (ax : Option ℕ) :
    ((reg_scatter x y data hue legend size sizes ax).filter Layer.isRegLayer).length = 1 ∧
    ((reg_scatter x y data hue legend size sizes ax).filter Layer.drawsMarkers).length = 1 ∧
    (∀ l, Layer.regL l ∈ reg_scatter x y data hue legend size sizes ax →
      l.scatter = false ∧ l.ci = none ∧ l.lineColor = "black" ∧
      l.estimator = Estimator.ols) ∧
    (∀ pts a b, Estimator.fitLine Estimator.ols pts = some (a, b) →
      resSum pts a b = 0 ∧ resXSum pts a b = 0) := by
  refine ⟨rfl, rfl, ?_, ?_⟩
  · intro l hl
    simp [reg_scatter] at hl
    subst hl
    exact ⟨rfl, rfl, rfl, rfl⟩
  · intro pts a b hfit
    simp only [Estimator.fitLine, olsFit] at hfit
    by_cases hd : olsDen pts = 0
    · rw [if_pos hd] at hfit
      exact absurd hfit (by simp)
    · rw [if_neg hd] at hfit
      injection hfit with hab
      injection hab with ha hb
      subst ha
      subst hb
      have hn : (pts.length : ℚ) ≠ 0 := by
        intro h0
        apply hd
        have hz : pts.length = 0 := by exact_mod_cast h0
        have hnil : pts = [] := List.length_eq_zero.mp hz
        subst hnil
        simp [olsDen, sumXX, sumX]
      have hd2 : (pts.length : ℚ) * sumXX pts - sumX pts * sumX pts ≠ 0 := hd
      constructor
      · rw [resSum_eq, olsIntercept]
        field_simp
      · rw [resXSum_eq]
        simp only [olsIntercept, olsSlope, olsDen]
        field_simp
        ring

/-- Witness for C5: the regression-layer count, the layer options, and the
normal equations at the concrete cloud [(0,0), (1,1)], whose fitted line is
y = 1 * x + 0. -/
theorem reg_scatter_single_ols_regression_layer_witness :
    ((reg_scatter "x" "y" ⟨[]⟩ none "auto" none none none).filter Layer.isRegLayer).length
        = 1 ∧
    ({ x := "x", y := "y", data := ⟨[]⟩, axId := none, scatter := false, ci := none,
       lineColor := "black", estimator := Estimator.ols } : RegLayer).ci = none ∧
    resSum [((0 : ℚ), (0 : ℚ)), (1, 1)] 1 0 = 0 ∧
    resXSum [((0 : ℚ), (0 : ℚ)), (1, 1)] 1 0 = 0 :=
  ⟨(reg_scatter_single_ols_regression_layer "x" "y" ⟨[]⟩ none "auto" none none none).1,
   ((reg_scatter_single_ols_regression_layer "x" "y" ⟨[]⟩ none "auto" none none none).2.2.1
      _ (by simp [reg_scatter])).2.1,
   ((reg_scatter_single_ols_regression_layer "x" "y" ⟨[]⟩ none "auto" none none none).2.2.2
      [((0 : ℚ), (0 : ℚ)), (1, 1)] 1 0 (by with_unfolding_all rfl)).1,
   ((reg_scatter_single_ols_regression_layer "x" "y" ⟨[]⟩ none "auto" none none none).2.2.2
      [((0 : ℚ), (0 : ℚ)), (1, 1)] 1 0 (by with_unfolding_all rfl)).2⟩

/-- First-appearance deduplication is the identity on duplicate-free lists. -/
theorem dedupFirst_eq_self (xs : List PyVal) (h : xs.Nodup) : dedupFirst xs = xs := by
  induction xs with
  | nil => rfl
  | cons a t ih =>
    obtain ⟨ha, ht⟩ := List.nodup_cons.mp h
    simp only [dedupFirst, ih ht]
    rw [List.filter_eq_self.mpr]
    intro b hb
    exact decide_eq_true fun hba => ha (hba ▸ hb)

/-- Unfolding `rowsOf` over a leading row. -/
theorem rowsOf_cons (c x v : PyVal) (rest : List (PyVal × PyVal)) :
    rowsOf c ((x, v) :: rest) = if x = c then v :: rowsOf c rest else rowsOf c rest := by
  by_cases hx : x = c
  · simp [rowsOf, List.filter_cons, hx]
  · simp [rowsOf, List.filter_cons, hx]

/-- A category absent from the x column selects no rows. -/
theorem rowsOf_zip_nil (c : PyVal) (xs ys : List PyVal) (h : c ∉ xs) :
    rowsOf c (xs.zip ys) = [] := by
  induction xs generalizing ys with
  | nil => rfl
  | cons x t ih =>
    cases ys with
    | nil => rfl
    | cons v vs =>
      rw [List.zip_cons_cons, rowsOf_cons,
        if_neg fun he : x = c => h (he ▸ List.mem_cons_self x t)]
      exact ih vs fun hc => h (List.mem_cons_of_mem x hc)

/-- The mean of a single numeric cell is its value. -/
theorem meanOpt_singleton (v : ℚ) : meanOpt [PyVal.num v] = some v := by
  simp [meanOpt, numsOf, numOf]

/-- On an object-dtype column with pairwise-distinct, non-missing entries,
the seaborn category order is the column itself. -/
theorem categoricalOrder_eq_self (xs : List PyVal) (hstr : hasStr xs = true)
    (hnn : PyVal.nullv ∉ xs) (hnd : xs.Nodup) : categoricalOrder xs = xs := by
  simp only [categoricalOrder]
  rw [if_pos hstr, dedupFirst_eq_self xs hnd]
  exact List.filter_eq_self.mpr fun v hv =>
    decide_eq_true fun hveq : v = PyVal.nullv => hnn (hveq ▸ hv)

/-- With pairwise-distinct categories, the per-category means over the
zipped rows reproduce each row's own value. -/
theorem map_rowMean_of_nodup (xs : List PyVal) (vs : List ℚ) (hnd : xs.Nodup)
    (hlen : xs.length = vs.length) :
    (xs.map fun c => (c, meanOpt (rowsOf c (xs.zip (vs.map PyVal.num)))))
      = xs.zip (vs.map some) := by
  induction xs generalizing vs with
  | nil => simp
  | cons x t ih =>
    cases vs with
    | nil => simp at hlen
    | cons v vs =>
      obtain ⟨hx, ht⟩ := List.nodup_cons.mp hnd
      have hlen2 : t.length = vs.length := by simpa using hlen
      simp only [List.map_cons, List.zip_cons_cons]
      congr 1
      · rw [rowsOf_cons, if_pos rfl, rowsOf_zip_nil x t (vs.map PyVal.num) hx,
          meanOpt_singleton]
      · have hstep : ∀ c ∈ t,
            (c, meanOpt (rowsOf c ((x, PyVal.num v) :: t.zip (vs.map PyVal.num))))
              = (c, meanOpt (rowsOf c (t.zip (vs.map PyVal.num)))) := by
          intro c hc
          rw [rowsOf_cons, if_neg fun he : x = c => hx (he.symm ▸ hc)]
        rw [List.map_congr_left hstep]
        exact ih vs ht hlen2

/-- On an object-dtype frame holding exactly one numeric row per
(non-missing, pairwise-distinct) category, the bars of `sns.barplot` are
exactly the category/value pairs, in row order. On a numeric category
column seaborn instead sorts the categories, so the bars need not follow
row order there. -/
theorem barplotBars_of_nodup (xs : List PyVal) (vs : List ℚ)
    (hstr : hasStr xs = true) (hnn : PyVal.nullv ∉ xs) (hnd : xs.Nodup)
    (hlen : xs.length = vs.length) :
    barplotBars xs (vs.map PyVal.num) = xs.zip (vs.map some) := by
  simp only [barplotBars]
  rw [categoricalOrder_eq_self xs hstr hnn hnd]
  exact map_rowMean_of_nodup xs vs hnd hlen

/-- C2 counterexample: on a frame whose category column repeats `"a"` over
two rows of values 1 and 3, seaborn draws one bar of height 2 (the mean),
but the label loop walks the raw rows: it writes `"1.0"` at position 0 and
`"3.0"` at position 1, and no label shows the bar's height 2. -/
theorem beautybar_bar_labels_counterexample :
    ¬ labelsShowBarHeights
        (beautybar ⟨0, 0, fun _ => 0⟩ "cat" "val"
          ⟨[("cat", [.strv "a", .strv "a"]), ("val", [.num 1, .num 3])]⟩
          ⟨[("val", [.num 2])]⟩ "skyblue" none) := by
  intro hlab
  have hb : (beautybar ⟨0, 0, fun _ => 0⟩ "cat" "val"
      ⟨[("cat", [.strv "a", .strv "a"]), ("val", [.num 1, .num 3])]⟩
      ⟨[("val", [.num 2])]⟩ "skyblue" none).bars.get? 0
        = some (.strv "a", some 2) := by
    with_unfolding_all rfl
  have hmem := hlab 0 (.strv "a") (some 2) hb
  have htxt := List.mem_map_of_mem TextCmd.txt hmem
  have htxt2 : ("2.0" : String) ∈
      ((beautybar ⟨0, 0, fun _ => 0⟩ "cat" "val"
        ⟨[("cat", [.strv "a", .strv "a"]), ("val", [.num 1, .num 3])]⟩
        ⟨[("val", [.num 2])]⟩ "skyblue" none).barTexts.map TextCmd.txt) := by
    have he : TextCmd.txt
        ({ x := some ((0 : ℕ) : ℚ), y := oAdd (some 2) (1 / 5), txt := str2dpOpt (some 2)
         , ha := some "center", va := some "bottom" } : TextCmd) = "2.0" := by
      with_unfolding_all rfl
    rw [← he]
    exact htxt
  have hlist : ((beautybar ⟨0, 0, fun _ => 0⟩ "cat" "val"
      ⟨[("cat", [.strv "a", .strv "a"]), ("val", [.num 1, .num 3])]⟩
      ⟨[("val", [.num 2])]⟩ "skyblue" none).barTexts.map TextCmd.txt)
        = ["1.0", "3.0"] := by
    with_unfolding_all rfl
  rw [hlist] at htxt2
  exact absurd htxt2 (by decide)

/-- C2 amended: when the category column of `data` is object-dtype (it
holds a string entry), free of missing entries, with pairwise-distinct
categories and exactly one numeric row per category, every bar of
`beautybar` carries a centered text label directly above it — at its
category position, 0.2 above its top — showing its height (equal to that
row's value) rounded to 2 decimals. In general the source labels the raw
rows of `data[y]` in row order: with repeated categories no label shows the
drawn bar's mean, and on a numeric category column seaborn sorts the bars
while the labels stay in row order. -/
theorem beautybar_bar_labels_amended (st : PltState) (x y : String)
    (data data_avg : Frame) (color : String) (ax : Option ℕ)
    (xs : List PyVal) (vs : List ℚ)
    (hx : data.col x = xs) (hy : data.col y = vs.map PyVal.num)
    (hstr : hasStr xs = true) (hnn : PyVal.nullv ∉ xs)
    (hnd : xs.Nodup) (hlen : xs.length = vs.length) :
    labelsShowBarHeights (beautybar st x y data data_avg color ax) := by
  intro i c v hbv
  have hbars : (beautybar st x y data data_avg color ax).bars = xs.zip (vs.map some) := by
    show barplotBars (data.col x) (data.col y) = _
    rw [hx, hy]
    exact barplotBars_of_nodup xs vs hstr hnn hnd hlen
  rw [hbars] at hbv
  obtain ⟨hxc, hvv⟩ := (List.get?_zip_eq_some _ _ _ _).mp hbv
  rw [List.get?_map] at hvv
  obtain ⟨w, hw, hwv⟩ := Option.map_eq_some'.mp hvv
  have htexts : (beautybar st x y data data_avg color ax).barTexts
      = ((vs.map PyVal.num).enum.map fun p =>
          { x := some (p.1 : ℚ), y := oAdd (numOf p.2) (1 / 5)
          , txt := str2dpOpt (numOf p.2), ha := some "center", va := some "bottom" }) := by
    show ((data.col y).enum.map _) = _
    rw [hy]
  rw [htexts]
  have hwv2 : some w = v := hwv
  refine @List.get?_mem _ _ i _ ?_
  rw [List.get?_map, List.get?_enum, List.get?_map, hw]
  simp only [Option.map_some']
  rw [← hwv2]
  rfl

/-- Witness for C2 (amended) on a two-category frame with values 1 and 3. -/
theorem beautybar_bar_labels_amended_witness :
    labelsShowBarHeights
      (beautybar ⟨0, 0, fun _ => 0⟩ "cat" "val"
        ⟨[("cat", [.strv "a", .strv "b"]), ("val", [.num 1, .num 3])]⟩
        ⟨[("val", [.num 2])]⟩ "skyblue" none) :=
  beautybar_bar_labels_amended ⟨0, 0, fun _ => 0⟩ "cat" "val"
    ⟨[("cat", [.strv "a", .strv "b"]), ("val", [.num 1, .num 3])]⟩
    ⟨[("val", [.num 2])]⟩ "skyblue" none
    [.strv "a", .strv "b"] [1, 3] (by with_unfolding_all rfl) (by with_unfolding_all rfl)
    (by decide) (by decide) (by decide) (by decide)

end VizBeauty
